import Mathlib

/-!
Shallow embedding of the EXIF/TIFF decoder in `src/imgmeta/basic.go`
(package `imgmeta` of kuetemeier/imgindex).

Conventions of the embedding:

* A byte block (`[]byte` in Go) is a `List Nat`; every read normalizes the
  stored number modulo 256, matching Go's `byte` type.
* Go's unchecked slice indexing and slicing panic when out of range; the
  embedding models this with `Option`: `none` is a Go runtime panic
  ("index/slice out of range"), `some` is normal evaluation.
* Go `uint32` arithmetic wraps; the embedding applies `% two32` wherever the
  source computes in `uint32`.
* `float64` results (rational division, `Float64frombits`) are kept symbolic
  in `GoFloat64`: a division with a non-zero denominator is recorded as the
  numerator/denominator pair (IEEE rounding abstracted; equal pairs denote
  equal doubles), a division by zero is classified into the IEEE special
  values exactly as Go produces them. `float32` values are recorded by their
  IEEE-754 bit pattern, since `math.Float32frombits` is a bijection on bits.
-/

namespace Imgmeta

/-- Wrap-around modulus of Go's `uint32` arithmetic. -/
def two32 : Nat := 4294967296

/-- The byte order selected for multi-byte reads (`binary.ByteOrder` in Go:
`binary.LittleEndian` or `binary.BigEndian`). -/
inductive ByteOrder where
  | little
  | big
deriving DecidableEq, Repr

/-- Read one byte of the block: Go `b[i]`. `none` models the out-of-range
panic; the stored number is normalized modulo 256 (a Go byte). -/
def byteAt (b : List Nat) (i : Nat) : Option Nat :=
  (b.get? i).map (· % 256)

/-- Go `endian.Uint16(b[i:])`: two bytes combined under the byte order.
`none` models the out-of-range panic. -/
def getU16 (bo : ByteOrder) (b : List Nat) (i : Nat) : Option Nat :=
  match byteAt b i, byteAt b (i+1) with
  | some x, some y =>
    some (match bo with
      | .big => x * 256 + y
      | .little => y * 256 + x)
  | _, _ => none

/-- Go `endian.Uint32(b[i:])`: four bytes combined under the byte order. -/
def getU32 (bo : ByteOrder) (b : List Nat) (i : Nat) : Option Nat :=
  match byteAt b i, byteAt b (i+1), byteAt b (i+2), byteAt b (i+3) with
  | some x0, some x1, some x2, some x3 =>
    some (match bo with
      | .big => ((x0 * 256 + x1) * 256 + x2) * 256 + x3
      | .little => ((x3 * 256 + x2) * 256 + x1) * 256 + x0)
  | _, _, _, _ => none

/-- Go `endian.Uint64(b[i:])`: eight bytes combined under the byte order. -/
def getU64 (bo : ByteOrder) (b : List Nat) (i : Nat) : Option Nat :=
  match getU32 bo b i, getU32 bo b (i+4) with
  | some hi, some lo =>
    some (match bo with
      | .big => hi * 4294967296 + lo
      | .little => lo * 4294967296 + hi)
  | _, _ => none

/-- Go slice expression `b[lo:hi]`. `none` models the "slice bounds out of
range" panic (`hi < lo` or `hi > len(b)`). -/
def goSlice (b : List Nat) (lo hi : Nat) : Option (List Nat) :=
  if lo ≤ hi ∧ hi ≤ b.length then some ((b.drop lo).take (hi - lo)) else none

/-- Go `int8(v)` of the low byte of a `uint32`. -/
def toInt8 (v : Nat) : Int :=
  if v % 256 < 128 then ((v % 256 : Nat) : Int) else ((v % 256 : Nat) : Int) - 256

/-- Go `int16(v)` of the low 16 bits of a `uint32`. -/
def toInt16 (v : Nat) : Int :=
  if v % 65536 < 32768 then ((v % 65536 : Nat) : Int) else ((v % 65536 : Nat) : Int) - 65536

/-- Go `int32(v)` of a `uint32`. -/
def toInt32 (v : Nat) : Int :=
  if v % two32 < 2147483648 then ((v % two32 : Nat) : Int) else ((v % two32 : Nat) : Int) - two32

/-- Symbolic Go `float64` value, precise enough for the decoder: division
results and raw bit reinterpretations. `finite num den` stands for the IEEE
double `float64(num) / float64(den)` with `den ≠ 0` (rounding abstracted:
equal pairs denote equal doubles); `ofBits` stands for
`math.Float64frombits`; the rest are the IEEE special values. -/
inductive GoFloat64 where
  | finite (num den : Int)
  | ofBits (bits : Nat)
  | inf
  | negInf
  | nan
deriving DecidableEq, Repr

/-- Go `float64(num) / float64(den)` for `uint32` numerator and denominator:
IEEE division, yielding `+Inf` for `num/0` with `num > 0` and `NaN` for
`0/0`, exactly as the Go runtime computes. -/
def goDivURat (num den : Nat) : GoFloat64 :=
  if den ≠ 0 then .finite num den
  else if num = 0 then .nan
  else .inf

/-- Go `float64(num) / float64(den)` for `int32` numerator and denominator:
IEEE division, yielding `±Inf`/`NaN` on a zero denominator. -/
def goDivSRat (num den : Int) : GoFloat64 :=
  if den ≠ 0 then .finite num den
  else if num = 0 then .nan
  else if 0 < num then .inf
  else .negInf

/-- The dynamic value (`interface{}`) a successful decode produces. -/
inductive ExifValue where
  | u8 (v : Nat)
  | u16 (v : Nat)
  | u32 (v : Nat)
  | i8 (v : Int)
  | i16 (v : Int)
  | i32 (v : Int)
  | f32bits (bits : Nat)
  | f64 (v : GoFloat64)
  | u8array (vs : List Nat)
  | u16array (vs : List Nat)
  | u32array (vs : List Nat)
  | i8array (vs : List Int)
  | i16array (vs : List Int)
  | i32array (vs : List Int)
  | intVal (v : Int)
deriving DecidableEq, Repr

/-- The `(interface{}, error)` pair a decode returns: `ok` is a value with a
`nil` error, `fail` is a non-nil `*exifError` carrying its message (the Go
code pairs it with the throwaway value `int(0)`, which callers ignore). -/
inductive DecodeOut where
  | ok (v : ExifValue)
  | fail (msg : String)
deriving DecidableEq, Repr

/-- Marker constant for the little-endian TIFF byte order.
Modelled from the spec: the constant `cINTEL` is declared in a repository
file missing from `src/` (the JPEG scanner); the spec (section 3) says the
marker `"II"` (bytes 0x49 0x49) selects little-endian. -/
def cINTEL : Nat := 0x4949

/-- IFD-kind marker for IFD0.
Modelled from the spec: declared in a repository file missing from `src/`;
only its distinctness from the pointer-tag IDs below matters. -/
def cIFDZERO : Nat := 0

/-- The EXIF-pointer tag ID (doubles as the EXIF sub-IFD kind marker).
Modelled from the spec: declared in a repository file missing from `src/`;
the spec names the EXIF-pointer tag, whose standard EXIF ID is 0x8769. -/
def cIFDEXIF : Nat := 0x8769

/-- The GPS-pointer tag ID (doubles as the GPS sub-IFD kind marker).
Modelled from the spec: declared in a repository file missing from `src/`;
the spec names the GPS-pointer tag, whose standard EXIF ID is 0x8825. -/
def cIFDGPS : Nat := 0x8825

/-- The Interop-pointer tag ID (doubles as the Interop sub-IFD kind marker).
Modelled from the spec: declared in a repository file missing from `src/`;
the spec names the Interop-pointer tag, whose standard EXIF ID is 0xA005. -/
def cIFDINTEROP : Nat := 0xA005

/-- Flag OR'd onto a type ID when the component count exceeds 1
(`cARRAY` in `basic.go`). -/
def cARRAY : Nat := 0x0100

/-- Type ID constants of `basic.go`. -/
def cUBYTE : Nat := 0x0001

/-- ASCII type ID. -/
def cASCII : Nat := 0x0002

/-- Unsigned short type ID. -/
def cUSHORT : Nat := 0x0003

/-- Unsigned long type ID. -/
def cULONG : Nat := 0x0004

/-- Unsigned rational type ID. -/
def cURATIONAL : Nat := 0x0005

/-- Signed byte type ID. -/
def cSBYTE : Nat := 0x0006

/-- Undefined type ID. -/
def cUNDEFINED : Nat := 0x0007

/-- Signed short type ID. -/
def cSSHORT : Nat := 0x0008

/-- Signed long type ID. -/
def cSLONG : Nat := 0x0009

/-- Signed rational type ID. -/
def cSRATIONAL : Nat := 0x000A

/-- 32-bit float type ID. -/
def cFLOAT32 : Nat := 0x000B

/-- 64-bit float type ID. -/
def cFLOAT64 : Nat := 0x000C

/-- `tEXIFAPP` of `basic.go`: an EXIF APP1 segment. The Go struct also
carries a file offset and a cached byte order used only by accessors not
embedded here (`Marker`, `Length`); `ReadValue` re-derives the byte order
from the block, so only the block is modelled. -/
structure tEXIFAPP where
  block : List Nat
deriving DecidableEq, Repr

/-- `tExifTag` of `basic.go`: a 12-byte tag record view. `offset` is the Go
struct field of the same name; `GetTag` leaves it at Go's zero value 0. -/
structure tExifTag where
  endian : ByteOrder
  offset : Nat
  appblock : List Nat
deriving DecidableEq, Repr

/-- `tExifIFD` of `basic.go`: an IFD view into the APP block. -/
structure tExifIFD where
  offset : Nat
  endian : ByteOrder
  appblock : List Nat
deriving DecidableEq, Repr

/-- `tExifTag.TagID`: the 2-byte tag ID. -/
def tExifTag.TagID (tag : tExifTag) : Option Nat :=
  getU16 tag.endian tag.appblock tag.offset

/-- `tExifTag.countOrComponents`: the 4-byte component count. -/
def tExifTag.countOrComponents (tag : tExifTag) : Option Nat :=
  getU32 tag.endian tag.appblock (tag.offset + 4)

/-- `tExifTag.TypeID`: the 2-byte type ID, OR'd with `cARRAY` when the
component count exceeds 1. -/
def tExifTag.TypeID (tag : tExifTag) : Option Nat :=
  tag.countOrComponents.bind fun c =>
    (getU16 tag.endian tag.appblock (tag.offset + 2)).map fun t =>
      if 1 < c then cARRAY ||| t else t

/-- `tExifTag.valueOrOffset`: the 4-byte value slot, read under the tag's
byte order. -/
def tExifTag.valueOrOffset (tag : tExifTag) : Option Nat :=
  getU32 tag.endian tag.appblock (tag.offset + 8)

/-- `tExifTag.valueAsFloat32`: the value slot reinterpreted as IEEE-754
bits. The Go source reads the slot with `binary.LittleEndian.Uint32`
unconditionally — not with `tag.endian`. The result is the bit pattern
handed to `math.Float32frombits`. -/
def tExifTag.valueAsFloat32 (tag : tExifTag) : Option Nat :=
  getU32 .little tag.appblock (tag.offset + 8)

/-- `tExifIFD.NumberOfTags`: the 2-byte entry count at the IFD's offset. -/
def tExifIFD.NumberOfTags (ifd : tExifIFD) : Option Nat :=
  getU16 ifd.endian ifd.appblock ifd.offset

/-- `tExifIFD.GetTag`: the 12-byte window of entry `index`, located at
`ifd.offset + 2 + index*12` (computed in `uint32`). The Go code slices
`appblock[o : o+12]` and leaves the tag's `offset` field at zero. -/
def tExifIFD.GetTag (ifd : tExifIFD) (index : Nat) : Option tExifTag :=
  let o := (ifd.offset + 2 + index * 12) % two32
  (goSlice ifd.appblock o ((o + 12) % two32)).map fun w =>
    { endian := ifd.endian, offset := 0, appblock := w }

/-- Sequence an indexed read over `0, 1, ..., count-1` (the Go
`for i := uint32(0); i < count; i++` loops building arrays). -/
def mapRange (count : Nat) (f : Nat → Option α) : Option (List α) :=
  (List.range count).mapM f

/-- `tExifIFD.readValueFromOffset`: decode an out-of-line value. Every case
first rebases the stored offset as `ifd.offset + offset` (in `uint32`
arithmetic) — relative to the owning IFD's base offset. The branch order
mirrors the Go `switch`. -/
def tExifIFD.readValueFromOffset (ifd : tExifIFD) (offset typeID count : Nat) :
    Option DecodeOut :=
  if typeID = cARRAY ||| cUBYTE then
    let p := (ifd.offset + offset) % two32
    (goSlice ifd.appblock p ((p + count) % two32)).map fun s =>
      .ok (.u8array (s.map (· % 256)))
  else if typeID = cARRAY ||| cUSHORT then
    let p := (ifd.offset + offset) % two32
    (goSlice ifd.appblock p ((p + (count * 2) % two32) % two32)).bind fun blk =>
      (mapRange count (fun i => getU16 ifd.endian blk ((i * 2) % two32))).map fun vs =>
        .ok (.u16array vs)
  else if typeID = cARRAY ||| cULONG then
    let p := (ifd.offset + offset) % two32
    (goSlice ifd.appblock p ((p + (count * 4) % two32) % two32)).bind fun blk =>
      (mapRange count (fun i => getU32 ifd.endian blk ((i * 4) % two32))).map fun vs =>
        .ok (.u32array vs)
  else if typeID = cARRAY ||| cSBYTE then
    let p := (ifd.offset + offset) % two32
    (goSlice ifd.appblock p ((p + count) % two32)).bind fun blk =>
      (mapRange count (fun i => byteAt blk i)).map fun vs =>
        .ok (.i8array (vs.map toInt8))
  else if typeID = cARRAY ||| cSSHORT then
    let p := (ifd.offset + offset) % two32
    (goSlice ifd.appblock p ((p + (count * 2) % two32) % two32)).bind fun blk =>
      (mapRange count (fun i => getU16 ifd.endian blk ((i * 2) % two32))).map fun vs =>
        .ok (.i16array (vs.map toInt16))
  else if typeID = cARRAY ||| cSLONG then
    let p := (ifd.offset + offset) % two32
    (goSlice ifd.appblock p ((p + (count * 4) % two32) % two32)).bind fun blk =>
      (mapRange count (fun i => getU32 ifd.endian blk ((i * 4) % two32))).map fun vs =>
        .ok (.i32array (vs.map toInt32))
  else if typeID = cFLOAT64 then
    (getU64 ifd.endian ifd.appblock ((ifd.offset + offset) % two32)).map fun bits =>
      .ok (.f64 (.ofBits bits))
  else if typeID = cURATIONAL then
    (getU32 ifd.endian ifd.appblock ((ifd.offset + offset) % two32)).bind fun num =>
      (getU32 ifd.endian ifd.appblock ((ifd.offset + offset + 4) % two32)).map fun den =>
        .ok (.f64 (goDivURat num den))
  else if typeID = cSRATIONAL then
    (getU32 ifd.endian ifd.appblock ((ifd.offset + offset) % two32)).bind fun num =>
      (getU32 ifd.endian ifd.appblock ((ifd.offset + offset + 4) % two32)).map fun den =>
        .ok (.f64 (goDivSRat (toInt32 num) (toInt32 den)))
  else
    some (.fail "Reading EXIF tag value from offset failed")

/-- `tExifIFD.ReadValue`: decode one tag. The `switch` over `tag.TypeID()`
handles the six integer scalars inline from the value slot, `float32` via
the little-endian slot read, and forwards the nine out-of-line cases to
`readValueFromOffset`; everything else — including ASCII, undefined, and
arrays of rationals or floats — falls through to the error return. -/
def tExifIFD.ReadValue (ifd : tExifIFD) (tag : tExifTag) : Option DecodeOut :=
  tag.TypeID.bind fun tid =>
    let viaOffset : Option DecodeOut :=
      tag.valueOrOffset.bind fun vo =>
        tag.countOrComponents.bind fun c =>
          ifd.readValueFromOffset vo tid c
    if tid = cUBYTE then
      tag.valueOrOffset.map fun v => .ok (.u8 (v % 256))
    else if tid = cUSHORT then
      tag.valueOrOffset.map fun v => .ok (.u16 (v % 65536))
    else if tid = cULONG then
      tag.valueOrOffset.map fun v => .ok (.u32 v)
    else if tid = cSBYTE then
      tag.valueOrOffset.map fun v => .ok (.i8 (toInt8 v))
    else if tid = cSSHORT then
      tag.valueOrOffset.map fun v => .ok (.i16 (toInt16 v))
    else if tid = cSLONG then
      tag.valueOrOffset.map fun v => .ok (.i32 (toInt32 v))
    else if tid = cFLOAT32 then
      tag.valueAsFloat32.map fun bits => .ok (.f32bits bits)
    else if tid = cFLOAT64 then viaOffset
    else if tid = cURATIONAL then viaOffset
    else if tid = cSRATIONAL then viaOffset
    else if tid = cARRAY ||| cUBYTE then viaOffset
    else if tid = cARRAY ||| cUSHORT then viaOffset
    else if tid = cARRAY ||| cULONG then viaOffset
    else if tid = cARRAY ||| cSBYTE then viaOffset
    else if tid = cARRAY ||| cSSHORT then viaOffset
    else if tid = cARRAY ||| cSLONG then viaOffset
    else some (.fail "Reading EXIF tag value failed")

/-- `ifdOffsetItem` of `basic.go`: one pending work-list entry of the
IFD-graph walk. -/
structure ifdOffsetItem where
  offset : Nat
  ifdType : Nat
deriving DecidableEq, Repr

/-- Outcome of scanning the entries of one IFD: either an early return with
the first matching tag's decode result, or the pointer-tag edges pushed
while scanning (in entry order). -/
inductive ScanOut where
  | found (r : Option DecodeOut)
  | edges (es : List ifdOffsetItem)
deriving DecidableEq, Repr

/-- Prepend an edge pushed before the rest of the scan completed; an early
return discards it (the Go `return` exits before the queue is drained). -/
def ScanOut.push (e : ifdOffsetItem) : ScanOut → ScanOut
  | .found r => .found r
  | .edges es => .edges (e :: es)

/-- The inner `for i := ...; i < numberOfTags; i++` loop of
`tEXIFAPP.ReadValue`, scanning entries `index, index+1, ...` while `r`
entries remain: return the first entry whose tag ID matches, otherwise
collect the pointer-tag edges (EXIF/GPS inside IFD0, Interop inside the
EXIF sub-IFD), each with offset `tiffOffset + valueOrOffset` in `uint32`
arithmetic. -/
def scanIFD (ifd : tExifIFD) (ifdType tagID2Find tiffOffset : Nat) :
    Nat → Nat → Option ScanOut
  | _, 0 => some (.edges [])
  | index, r + 1 =>
    (ifd.GetTag index).bind fun tag =>
      tag.TagID.bind fun tagID =>
        if tagID = tagID2Find then
          some (.found (ifd.ReadValue tag))
        else if ifdType = cIFDZERO ∧ tagID = cIFDEXIF then
          tag.valueOrOffset.bind fun vo =>
            (scanIFD ifd ifdType tagID2Find tiffOffset (index + 1) r).map
              (ScanOut.push ⟨(tiffOffset + vo) % two32, cIFDEXIF⟩)
        else if ifdType = cIFDZERO ∧ tagID = cIFDGPS then
          tag.valueOrOffset.bind fun vo =>
            (scanIFD ifd ifdType tagID2Find tiffOffset (index + 1) r).map
              (ScanOut.push ⟨(tiffOffset + vo) % two32, cIFDGPS⟩)
        else if ifdType = cIFDEXIF ∧ tagID = cIFDINTEROP then
          tag.valueOrOffset.bind fun vo =>
            (scanIFD ifd ifdType tagID2Find tiffOffset (index + 1) r).map
              (ScanOut.push ⟨(tiffOffset + vo) % two32, cIFDINTEROP⟩)
        else
          scanIFD ifd ifdType tagID2Find tiffOffset (index + 1) r

/-- Result of the fueled walk: `out r` is the Go function's behavior
(`none` a panic, `some` the returned pair); `fuelOut` marks fuel
exhaustion, which the termination theorem shows is unreachable for the
fuel budget `walkFuelBound`. -/
inductive WalkOut where
  | out (r : Option DecodeOut)
  | fuelOut
deriving DecidableEq, Repr

/-- The outer `for len(ifdQueue) > 0` loop of `tEXIFAPP.ReadValue`. The
work list is a stack with its top at the head (the Go code appends to and
pops from the tail of a slice); edges collected from one IFD scan are
placed reversed on top, so the last-pushed edge is popped first. An
emptied work list returns the pair `(int(1), nil)`. -/
def walkFuel (block : List Nat) (endian : ByteOrder) (tagID2Find : Nat) :
    Nat → List ifdOffsetItem → WalkOut
  | 0, _ => .fuelOut
  | _ + 1, [] => .out (some (.ok (.intVal 1)))
  | f + 1, item :: rest =>
    let ifd : tExifIFD := { offset := item.offset, endian := endian, appblock := block }
    match ifd.NumberOfTags with
    | none => .out none
    | some n =>
      match scanIFD ifd item.ifdType tagID2Find 10 0 n with
      | none => .out none
      | some (.found r) => .out r
      | some (.edges es) => walkFuel block endian tagID2Find f (es.reverse ++ rest)

/-- Fuel budget: strictly more than the weight `kindWeight cIFDZERO` of the
initial work list, so the walk provably never exhausts it. -/
def walkFuelBound : Nat := 4294967298

/-- `tEXIFAPP.TIFFByteOrder`: read the 2-byte order marker at block offset
10 as big-endian; `cINTEL` ("II") selects little-endian, anything else —
with no validation — selects big-endian. -/
def tEXIFAPP.TIFFByteOrder (t : tEXIFAPP) : Option ByteOrder :=
  (getU16 .big t.block 10).map fun bo =>
    if bo = cINTEL then ByteOrder.little else ByteOrder.big

/-- `tEXIFAPP.TIFFOffsetToIFD0`: the 4-byte IFD0 offset at block offset 14,
read under the detected byte order. -/
def tEXIFAPP.TIFFOffsetToIFD0 (t : tEXIFAPP) : Option Nat :=
  t.TIFFByteOrder.bind fun endian => getU32 endian t.block 14

/-- `tEXIFAPP.ReadValue`: the tag lookup. The TIFF header starts at block
offset 10; the work list is seeded with
`(tiffOffset + TIFFOffsetToIFD0, cIFDZERO)` and drained by `walkFuel`. -/
def tEXIFAPP.ReadValue (t : tEXIFAPP) (tagID2Find : Nat) : WalkOut :=
  match t.TIFFOffsetToIFD0 with
  | none => .out none
  | some off =>
    match t.TIFFByteOrder with
    | none => .out none
    | some endian =>
      walkFuel t.block endian tagID2Find walkFuelBound
        [⟨(10 + off) % two32, cIFDZERO⟩]

/-! Work-list walker written from the spec's words (section 4.3), for the
refinement comparison: a work list of `(ifdOffset, ifdKind)` pairs seeded
with `(ifd0Offset, IFD0)` is processed last-in-first-out; within each IFD
the entries are scanned in order and the first entry whose tag ID equals
the requested ID is decoded and returned immediately; a pointer tag is
pushed as an edge only when its kind matches (EXIF and GPS pointers inside
IFD0, the Interop pointer inside the EXIF sub-IFD), with the pushed offset
computed relative to the TIFF header base. Unlike the code-shaped
`scanIFD`, this version pushes each edge directly onto the explicit
stack as it is encountered. -/

/-- Modelled from the spec: the per-IFD scan of the spec's work-list
algorithm, threading the work-list stack and pushing matching-kind pointer
edges onto it; returns the first match's decode result or the extended
stack. -/
def specScanIfd (ifd : tExifIFD) (kind tagId tiffBase : Nat) :
    Nat → Nat → List ifdOffsetItem → Option (Sum (Option DecodeOut) (List ifdOffsetItem))
  | _, 0, stack => some (Sum.inr stack)
  | i, r + 1, stack =>
    (ifd.GetTag i).bind fun tag =>
      tag.TagID.bind fun tid =>
        if tid = tagId then
          some (Sum.inl (ifd.ReadValue tag))
        else if kind = cIFDZERO ∧ tid = cIFDEXIF then
          tag.valueOrOffset.bind fun vo =>
            specScanIfd ifd kind tagId tiffBase (i + 1) r
              (⟨(tiffBase + vo) % two32, cIFDEXIF⟩ :: stack)
        else if kind = cIFDZERO ∧ tid = cIFDGPS then
          tag.valueOrOffset.bind fun vo =>
            specScanIfd ifd kind tagId tiffBase (i + 1) r
              (⟨(tiffBase + vo) % two32, cIFDGPS⟩ :: stack)
        else if kind = cIFDEXIF ∧ tid = cIFDINTEROP then
          tag.valueOrOffset.bind fun vo =>
            specScanIfd ifd kind tagId tiffBase (i + 1) r
              (⟨(tiffBase + vo) % two32, cIFDINTEROP⟩ :: stack)
        else
          specScanIfd ifd kind tagId tiffBase (i + 1) r stack

/-- Modelled from the spec: the outer work-list loop of the spec's
algorithm, popping the most recently pushed pending IFD first. -/
def findTagValueSpecWalk (block : List Nat) (endian : ByteOrder) (tagId : Nat) :
    Nat → List ifdOffsetItem → WalkOut
  | 0, _ => .fuelOut
  | _ + 1, [] => .out (some (.ok (.intVal 1)))
  | f + 1, item :: rest =>
    let ifd : tExifIFD := { offset := item.offset, endian := endian, appblock := block }
    match ifd.NumberOfTags with
    | none => .out none
    | some n =>
      match specScanIfd ifd item.ifdType tagId 10 0 n rest with
      | none => .out none
      | some (Sum.inl r) => .out r
      | some (Sum.inr stack) => findTagValueSpecWalk block endian tagId f stack

/-- Modelled from the spec: `findTagValue(block, tagId)` of section 4.3,
seeding the work list with `(ifd0Offset, IFD0)`. -/
def findTagValueSpec (block : List Nat) (tagId : Nat) : WalkOut :=
  match (tEXIFAPP.mk block).TIFFOffsetToIFD0 with
  | none => .out none
  | some off =>
    match (tEXIFAPP.mk block).TIFFByteOrder with
    | none => .out none
    | some endian =>
      findTagValueSpecWalk block endian tagId walkFuelBound
        [⟨(10 + off) % two32, cIFDZERO⟩]

/-! Termination measure for the work-list walk: IFD kinds strictly descend
along pushed edges (IFD0 pushes EXIF/GPS, EXIF pushes Interop, everything
else pushes nothing), and one IFD holds at most 65535 entries, so weighting
IFD0 above 65535 EXIF items and EXIF above 65535 Interop items makes the
total work-list weight strictly decrease at every loop iteration. -/

/-- Weight of one pending work-list item, by IFD kind. -/
def kindWeight (k : Nat) : Nat :=
  if k = cIFDZERO then 4294967297
  else if k = cIFDEXIF then 65537
  else 1

/-- Total weight of a work list. -/
def queueWeight (q : List ifdOffsetItem) : Nat :=
  (q.map fun it => kindWeight it.ifdType).sum

/-- Largest weight a single edge pushed while scanning an IFD of kind `k`
can have. -/
def pushCap (k : Nat) : Nat :=
  if k = cIFDZERO then 65537
  else if k = cIFDEXIF then 1
  else 0

theorem queueWeight_append (q₁ q₂ : List ifdOffsetItem) :
    queueWeight (q₁ ++ q₂) = queueWeight q₁ + queueWeight q₂ := by
  simp [queueWeight]

theorem queueWeight_reverse (q : List ifdOffsetItem) :
    queueWeight q.reverse = queueWeight q := by
  simp [queueWeight, List.sum_reverse]

theorem getU16_lt_65536 {bo : ByteOrder} {b : List Nat} {i v : Nat}
    (h : getU16 bo b i = some v) : v < 65536 := by
  unfold getU16 byteAt at h
  cases hx : b.get? i with
  | none => rw [hx] at h; simp at h
  | some x =>
    cases hy : b.get? (i+1) with
    | none => rw [hx, hy] at h; simp at h
    | some y =>
      rw [hx, hy] at h
      simp only [Option.map_some'] at h
      have hx' : x % 256 < 256 := Nat.mod_lt _ (by norm_num)
      have hy' : y % 256 < 256 := Nat.mod_lt _ (by norm_num)
      cases bo <;> simp only [Option.some.injEq] at h <;> omega

theorem scanIFD_edges_weight (ifd : tExifIFD) (k t tiff : Nat) :
    ∀ r i es, scanIFD ifd k t tiff i r = some (.edges es) →
      queueWeight es ≤ r * pushCap k := by
  intro r
  induction r with
  | zero =>
    intro i es h
    simp only [scanIFD, Option.some.injEq, ScanOut.edges.injEq] at h
    subst h
    simp [queueWeight]
  | succ r ih =>
    intro i es h
    simp only [scanIFD] at h
    cases hg : ifd.GetTag i with
    | none => rw [hg] at h; simp at h
    | some tag =>
      rw [hg] at h
      simp only [Option.some_bind] at h
      cases ht : tag.TagID with
      | none => rw [ht] at h; simp at h
      | some tid =>
        rw [ht] at h
        simp only [Option.some_bind] at h
        split at h
        · simp at h
        · split at h
          · rename_i hmatch hexif
            cases hv : tag.valueOrOffset with
            | none => rw [hv] at h; simp at h
            | some vo =>
              rw [hv] at h
              simp only [Option.some_bind] at h
              cases hs : scanIFD ifd k t tiff (i+1) r with
              | none => rw [hs] at h; simp at h
              | some s =>
                rw [hs] at h
                cases s with
                | found r' => simp [ScanOut.push] at h
                | edges es' =>
                  simp only [Option.map_some', Option.some.injEq, ScanOut.push,
                    ScanOut.edges.injEq] at h
                  subst h
                  have hles : queueWeight es' ≤ r * pushCap k := ih (i+1) es' hs
                  have hcap : pushCap k = 65537 := by
                    rw [hexif.1]; norm_num [pushCap]
                  have hkw : kindWeight cIFDEXIF = 65537 := by
                    norm_num [kindWeight, cIFDEXIF, cIFDZERO]
                  simp only [queueWeight, List.map_cons, List.sum_cons]
                  simp only [queueWeight] at hles
                  rw [hcap] at hles
                  rw [hkw, hcap, Nat.succ_mul]
                  omega
          · split at h
            · rename_i hmatch hexif hgps
              cases hv : tag.valueOrOffset with
              | none => rw [hv] at h; simp at h
              | some vo =>
                rw [hv] at h
                simp only [Option.some_bind] at h
                cases hs : scanIFD ifd k t tiff (i+1) r with
                | none => rw [hs] at h; simp at h
                | some s =>
                  rw [hs] at h
                  cases s with
                  | found r' => simp [ScanOut.push] at h
                  | edges es' =>
                    simp only [Option.map_some', Option.some.injEq, ScanOut.push,
                      ScanOut.edges.injEq] at h
                    subst h
                    have hles : queueWeight es' ≤ r * pushCap k := ih (i+1) es' hs
                    have hcap : pushCap k = 65537 := by
                      rw [hgps.1]; norm_num [pushCap]
                    have hkw : kindWeight cIFDGPS = 1 := by
                      norm_num [kindWeight, cIFDGPS, cIFDZERO, cIFDEXIF]
                    simp only [queueWeight, List.map_cons, List.sum_cons]
                    simp only [queueWeight] at hles
                    rw [hcap] at hles
                    rw [hkw, hcap, Nat.succ_mul]
                    omega
            · split at h
              · rename_i hmatch hexif hgps hint
                cases hv : tag.valueOrOffset with
                | none => rw [hv] at h; simp at h
                | some vo =>
                  rw [hv] at h
                  simp only [Option.some_bind] at h
                  cases hs : scanIFD ifd k t tiff (i+1) r with
                  | none => rw [hs] at h; simp at h
                  | some s =>
                    rw [hs] at h
                    cases s with
                    | found r' => simp [ScanOut.push] at h
                    | edges es' =>
                      simp only [Option.map_some', Option.some.injEq, ScanOut.push,
                        ScanOut.edges.injEq] at h
                      subst h
                      have hles : queueWeight es' ≤ r * pushCap k := ih (i+1) es' hs
                      have hcap : pushCap k = 1 := by
                        rw [hint.1]; norm_num [pushCap, cIFDEXIF, cIFDZERO]
                      have hkw : kindWeight cIFDINTEROP = 1 := by
                        norm_num [kindWeight, cIFDINTEROP, cIFDZERO, cIFDEXIF]
                      simp only [queueWeight, List.map_cons, List.sum_cons]
                      simp only [queueWeight] at hles
                      rw [hcap] at hles
                      rw [hkw, hcap, Nat.succ_mul]
                      omega
              · exact le_trans (ih (i+1) es h)
                  (Nat.mul_le_mul_right _ (Nat.le_succ r))

theorem walkFuel_no_fuelOut (block : List Nat) (endian : ByteOrder) (t : Nat) :
    ∀ fuel q, queueWeight q < fuel →
      walkFuel block endian t fuel q ≠ .fuelOut := by
  intro fuel
  induction fuel with
  | zero => intro q hq; omega
  | succ f ih =>
    intro q hq
    cases q with
    | nil => simp [walkFuel]
    | cons item rest =>
      simp only [walkFuel]
      cases hn : tExifIFD.NumberOfTags
          { offset := item.offset, endian := endian, appblock := block } with
      | none => simp
      | some n =>
        simp only []
        cases hs : scanIFD { offset := item.offset, endian := endian, appblock := block }
            item.ifdType t 10 0 n with
        | none => simp
        | some s =>
          cases s with
          | found r => simp
          | edges es =>
            simp only []
            apply ih
            have hn' : n < 65536 := getU16_lt_65536 hn
            have hes : queueWeight es ≤ n * pushCap item.ifdType :=
              scanIFD_edges_weight _ _ _ _ n 0 es hs
            rw [queueWeight_append, queueWeight_reverse]
            have hq' : kindWeight item.ifdType + queueWeight rest < f + 1 := by
              simpa [queueWeight] using hq
            by_cases h0 : item.ifdType = cIFDZERO
            · have hw : kindWeight item.ifdType = 4294967297 := by
                rw [h0]; norm_num [kindWeight]
              have hc : pushCap item.ifdType = 65537 := by
                rw [h0]; norm_num [pushCap]
              rw [hw] at hq'
              rw [hc] at hes
              have : n * 65537 ≤ 65535 * 65537 := by
                apply Nat.mul_le_mul_right
                omega
              omega
            · by_cases h1 : item.ifdType = cIFDEXIF
              · have hw : kindWeight item.ifdType = 65537 := by
                  rw [h1]; norm_num [kindWeight, cIFDEXIF, cIFDZERO]
                have hc : pushCap item.ifdType = 1 := by
                  rw [h1]; norm_num [pushCap, cIFDEXIF, cIFDZERO]
                rw [hw] at hq'
                rw [hc] at hes
                omega
              · have hw : kindWeight item.ifdType = 1 := by
                  simp [kindWeight, h0, h1]
                have hc : pushCap item.ifdType = 0 := by
                  simp [pushCap, h0, h1]
                rw [hw] at hq'
                rw [hc] at hes
                omega

theorem specScanIfd_eq_scanIFD (ifd : tExifIFD) (k t tiff : Nat) :
    ∀ r i stack, specScanIfd ifd k t tiff i r stack =
      match scanIFD ifd k t tiff i r with
      | none => none
      | some (.found res) => some (Sum.inl res)
      | some (.edges es) => some (Sum.inr (es.reverse ++ stack)) := by
  intro r
  induction r with
  | zero =>
    intro i stack
    simp [specScanIfd, scanIFD]
  | succ r ih =>
    intro i stack
    simp only [specScanIfd, scanIFD]
    cases hg : ifd.GetTag i with
    | none => simp
    | some tag =>
      simp only [Option.some_bind]
      cases ht : tag.TagID with
      | none => simp
      | some tid =>
        simp only [Option.some_bind]
        split
        · simp
        · split
          · cases hv : tag.valueOrOffset with
            | none => simp
            | some vo =>
              simp only [Option.some_bind]
              rw [ih]
              cases hs : scanIFD ifd k t tiff (i+1) r with
              | none => simp
              | some s =>
                cases s with
                | found res => simp [ScanOut.push]
                | edges es => simp [ScanOut.push]
          · split
            · cases hv : tag.valueOrOffset with
              | none => simp
              | some vo =>
                simp only [Option.some_bind]
                rw [ih]
                cases hs : scanIFD ifd k t tiff (i+1) r with
                | none => simp
                | some s =>
                  cases s with
                  | found res => simp [ScanOut.push]
                  | edges es => simp [ScanOut.push]
            · split
              · cases hv : tag.valueOrOffset with
                | none => simp
                | some vo =>
                  simp only [Option.some_bind]
                  rw [ih]
                  cases hs : scanIFD ifd k t tiff (i+1) r with
                  | none => simp
                  | some s =>
                    cases s with
                    | found res => simp [ScanOut.push]
                    | edges es => simp [ScanOut.push]
              · rw [ih]

theorem findTagValueSpecWalk_eq_walkFuel (block : List Nat) (endian : ByteOrder)
    (tagId : Nat) : ∀ fuel q,
      findTagValueSpecWalk block endian tagId fuel q =
        walkFuel block endian tagId fuel q := by
  intro fuel
  induction fuel with
  | zero => intro q; rfl
  | succ f ih =>
    intro q
    cases q with
    | nil => rfl
    | cons item rest =>
      simp only [findTagValueSpecWalk, walkFuel]
      cases hn : tExifIFD.NumberOfTags
          { offset := item.offset, endian := endian, appblock := block } with
      | none => rfl
      | some n =>
        simp only [specScanIfd_eq_scanIFD]
        cases hs : scanIFD { offset := item.offset, endian := endian, appblock := block }
            item.ifdType tagId 10 0 n with
        | none => rfl
        | some s =>
          cases s with
          | found res => rfl
          | edges es => exact ih (es.reverse ++ rest)

/-! Frame lemmas: a read that stays inside a block's first part is unchanged
by appending further bytes — used to show the walk never inspects anything
after IFD0's entry table. -/

theorem byteAt_append (l₁ l₂ : List Nat) (i : Nat) (h : i < l₁.length) :
    byteAt (l₁ ++ l₂) i = byteAt l₁ i := by
  unfold byteAt
  rw [List.get?_append h]

theorem getU16_append (bo : ByteOrder) (l₁ l₂ : List Nat) (i : Nat)
    (h : i + 1 < l₁.length) :
    getU16 bo (l₁ ++ l₂) i = getU16 bo l₁ i := by
  unfold getU16
  rw [byteAt_append _ _ _ (by omega), byteAt_append _ _ _ (by omega)]

theorem getU32_append (bo : ByteOrder) (l₁ l₂ : List Nat) (i : Nat)
    (h : i + 3 < l₁.length) :
    getU32 bo (l₁ ++ l₂) i = getU32 bo l₁ i := by
  unfold getU32
  rw [byteAt_append _ _ _ (by omega), byteAt_append _ _ _ (by omega),
    byteAt_append _ _ _ (by omega), byteAt_append _ _ _ (by omega)]

theorem goSlice_append (l₁ l₂ : List Nat) (lo hi : Nat) (h : hi ≤ l₁.length) :
    goSlice (l₁ ++ l₂) lo hi = goSlice l₁ lo hi := by
  unfold goSlice
  by_cases hlo : lo ≤ hi
  · rw [if_pos ⟨hlo, by simp; omega⟩, if_pos ⟨hlo, h⟩,
      List.drop_append_of_le_length (by omega),
      List.take_append_of_le_length (by simp; omega)]
  · rw [if_neg (by tauto), if_neg (by tauto)]

/-! Step equations for the fueled walk, convenient for rewriting with
explicit fuel values. -/

theorem scanIFD_zero (ifd : tExifIFD) (k t tiff i : Nat) :
    scanIFD ifd k t tiff i 0 = some (.edges []) := rfl

theorem scanIFD_step_skip {ifd : tExifIFD} {k t tiff i r : Nat}
    {tag : tExifTag} {tid : Nat}
    (hg : ifd.GetTag i = some tag) (ht : tag.TagID = some tid)
    (h1 : tid ≠ t) (h2 : ¬(k = cIFDZERO ∧ tid = cIFDEXIF))
    (h3 : ¬(k = cIFDZERO ∧ tid = cIFDGPS))
    (h4 : ¬(k = cIFDEXIF ∧ tid = cIFDINTEROP)) :
    scanIFD ifd k t tiff i (r + 1) = scanIFD ifd k t tiff (i + 1) r := by
  simp only [scanIFD, hg, ht, Option.some_bind]
  rw [if_neg h1, if_neg h2, if_neg h3, if_neg h4]

theorem walkFuel_nil (block : List Nat) (endian : ByteOrder) (t f : Nat) :
    walkFuel block endian t (f + 1) [] = .out (some (.ok (.intVal 1))) := rfl

theorem walkFuel_cons_edges {block : List Nat} {endian : ByteOrder}
    {t f : Nat} {item : ifdOffsetItem} {rest es : List ifdOffsetItem} {n : Nat}
    (hn : tExifIFD.NumberOfTags
      { offset := item.offset, endian := endian, appblock := block } = some n)
    (hs : scanIFD { offset := item.offset, endian := endian, appblock := block }
      item.ifdType t 10 0 n = some (.edges es)) :
    walkFuel block endian t (f + 1) (item :: rest) =
      walkFuel block endian t f (es.reverse ++ rest) := by
  simp only [walkFuel, hn, hs]

/-! Concrete fixture blocks. Every block starts with 10 bytes of JPEG
segment header and "Exif" identifier (never read by the lookup), followed
by the TIFF header at offset 10 and IFD0 at offset 18. -/

/-- The spec's end-to-end fixture: a little-endian body whose IFD0 holds the
single entry `{tagId 0x112, unsigned short, count 1, value 1}`. -/
def c1block : List Nat :=
  [255, 225, 0, 0, 69, 120, 105, 102, 0, 0,
   0x49, 0x49, 0x2A, 0x00, 8, 0, 0, 0,
   1, 0,
   0x12, 0x01, 0x03, 0x00, 1, 0, 0, 0, 1, 0, 0, 0,
   0, 0, 0, 0]

/-- A block truncated to 9 bytes, shorter than the TIFF header region. -/
def c2block9 : List Nat := [255, 225, 0, 0, 69, 120, 105, 102, 0]

/-- The `c1block` fixture with its 2-byte TIFF signature overwritten by
0xDE 0xAD instead of 42. -/
def c2badsig : List Nat :=
  [255, 225, 0, 0, 69, 120, 105, 102, 0, 0,
   0x49, 0x49, 0xDE, 0xAD, 8, 0, 0, 0,
   1, 0,
   0x12, 0x01, 0x03, 0x00, 1, 0, 0, 0, 1, 0, 0, 0,
   0, 0, 0, 0]

/-- Little-endian body: one entry `{tagId 0x100, float32, count 1}` whose
value slot holds the bits 0x3F800000 (the float 1.0) serialized
little-endian. -/
def c3blockLE : List Nat :=
  [255, 225, 0, 0, 69, 120, 105, 102, 0, 0,
   0x49, 0x49, 0x2A, 0x00, 8, 0, 0, 0,
   1, 0,
   0x00, 0x01, 0x0B, 0x00, 1, 0, 0, 0, 0x00, 0x00, 0x80, 0x3F,
   0, 0, 0, 0]

/-- The big-endian body equivalent to `c3blockLE`: the same logical entry
`{tagId 0x100, float32, count 1, value bits 0x3F800000}` with every
multi-byte field — including the 4-byte value slot — serialized
big-endian. -/
def c3blockBE : List Nat :=
  [255, 225, 0, 0, 69, 120, 105, 102, 0, 0,
   0x4D, 0x4D, 0x00, 0x2A, 0, 0, 0, 8,
   0, 1,
   0x01, 0x00, 0x00, 0x0B, 0, 0, 0, 1, 0x3F, 0x80, 0x00, 0x00,
   0, 0, 0, 0]

/-- Little-endian body through IFD0: one entry `{tagId 0x100, unsigned
short, count 1, value 5}` and a non-zero next-IFD link (TIFF-relative 26,
absolute 36) pointing at whatever follows. -/
def c4front : List Nat :=
  [255, 225, 0, 0, 69, 120, 105, 102, 0, 0,
   0x49, 0x49, 0x2A, 0x00, 8, 0, 0, 0,
   1, 0,
   0x00, 0x01, 0x03, 0x00, 1, 0, 0, 0, 5, 0, 0, 0,
   26, 0, 0, 0]

/-- An IFD1 (thumbnail IFD) holding the single entry `{tagId 0x201,
unsigned short, count 1, value 7}`, placed at absolute offset 36 when
appended to `c4front`. -/
def c4ifd1 : List Nat :=
  [1, 0, 0x01, 0x02, 0x03, 0x00, 1, 0, 0, 0, 7, 0, 0, 0, 0, 0, 0, 0]

/-- A block whose byte-order marker is "XX" (0x5858), neither "II" nor
"MM". -/
def c10blk : List Nat :=
  [0, 0, 0, 0, 0, 0, 0, 0, 0, 0, 0x58, 0x58, 0, 0]

/-- C1: the claim says an absent tag makes `tEXIFAPP.ReadValue` return the
NotFound error; the code instead returns the pair `(int(1), nil)` — a
successful value with a nil error — when the work list empties without a
match. On the spec's own fixture, looking up the present tag 0x112 yields
the scalar `uint16(1)`, while looking up the absent tag 0x999 yields the
value `int(1)` with no error rather than any error. -/
theorem c1_absent_tag_returns_int_one_with_nil_error :
    (tEXIFAPP.mk c1block).ReadValue 0x999 = .out (some (.ok (.intVal 1)))
    ∧ (tEXIFAPP.mk c1block).ReadValue 0x112 = .out (some (.ok (.u16 1))) := by
  decide

/-- C2 counterexample: on a block truncated to 9 bytes the lookup does not
produce a typed MalformedHeader or OffsetOutOfRange error — it performs an
out-of-range slice access (`.out none` models the Go runtime panic), so the
claim that short blocks fail with a typed error and never crash is false at
this input. -/
theorem c2_counterexample_short_block_panics :
    (tEXIFAPP.mk c2block9).ReadValue 0x112 = .out none := by
  decide

/-- C2 amended: the code performs no bounds checking and no signature
validation; on any block shorter than the 12 bytes needed for the byte
order marker, header parsing and tag lookup abort with an out-of-range
slice access (a Go runtime panic, modelled as `.out none`) instead of a
typed error — and a block whose signature bytes are 0xDEAD instead of 42
decodes without any error at all, since the signature is never read. -/
theorem c2_short_block_reads_out_of_range :
    (∀ (t : tEXIFAPP) (tagID : Nat), t.block.length < 12 → t.ReadValue tagID = .out none)
    ∧ (tEXIFAPP.mk c2badsig).ReadValue 0x112 = .out (some (.ok (.u16 1))) := by
  constructor
  · intro t tagID h
    have h11 : t.block.get? 11 = none := List.get?_eq_none.mpr (by omega)
    have hu : getU16 .big t.block 10 = none := by
      unfold getU16 byteAt
      rw [h11]
      cases t.block.get? 10 <;> rfl
    have hbo : t.TIFFByteOrder = none := by
      unfold tEXIFAPP.TIFFByteOrder
      rw [hu]
      rfl
    have hoff : t.TIFFOffsetToIFD0 = none := by
      unfold tEXIFAPP.TIFFOffsetToIFD0
      rw [hbo]
      rfl
    unfold tEXIFAPP.ReadValue
    rw [hoff]
  · decide

/-- C2 witness: the 9-byte truncated block satisfies the hypothesis and the
lookup panics on it. -/
theorem c2_short_block_reads_out_of_range_witness :
    (tEXIFAPP.mk c2block9).block.length < 12 ∧
      (tEXIFAPP.mk c2block9).ReadValue 0x112 = .out none :=
  ⟨by decide, c2_short_block_reads_out_of_range.1 (tEXIFAPP.mk c2block9) 0x112 (by decide)⟩

/-- C3: the claim says equivalent little-endian and big-endian bodies
decode to identical values for every tag, including scalar float32; but
`valueAsFloat32` reads the value slot with hardcoded little-endian, so the
little-endian body decodes the float bits 0x3F800000 (1.0) while the
equivalent big-endian body decodes the bits 0x0000803F (a subnormal) — two
distinct non-NaN IEEE floats. -/
theorem c3_float32_slot_always_read_little_endian :
    (tEXIFAPP.mk c3blockLE).ReadValue 0x100 = .out (some (.ok (.f32bits 0x3F800000)))
    ∧ (tEXIFAPP.mk c3blockBE).ReadValue 0x100 = .out (some (.ok (.f32bits 0x0000803F)))
    ∧ (0x3F800000 : Nat) ≠ 0x0000803F := by
  decide

/-- C4 counterexample: IFD0's non-zero next-IFD link points at an IFD1 that
contains the thumbnail tag 0x201 with value 7 (reading that IFD directly
finds and decodes it), yet the lookup returns the not-found result
`(int(1), nil)` — the walk never follows the next link, so the claim that a
tag stored only in IFD1 is found is false at this input. -/
theorem c4_counterexample_ifd1_tag_not_found :
    (tEXIFAPP.mk (c4front ++ c4ifd1)).ReadValue 0x201 = .out (some (.ok (.intVal 1)))
    ∧ ((tExifIFD.mk 36 .little (c4front ++ c4ifd1)).GetTag 0).bind tExifTag.TagID
        = some 0x201
    ∧ ((tExifIFD.mk 36 .little (c4front ++ c4ifd1)).GetTag 0).bind
        (tExifIFD.ReadValue (tExifIFD.mk 36 .little (c4front ++ c4ifd1)))
        = some (.ok (.u16 7)) := by
  decide

/-- C4 amended: the walk never reads any next-IFD link; whatever bytes
follow IFD0's entry table — IFD1 included — the lookup of a tag absent from
IFD0 returns the not-found result `(int(1), nil)`, so a tag stored only in
IFD1 is never found (and a fortiori no sub-IFD next-link is ever
followed). -/
theorem c4_next_ifd_link_never_followed (suffix : List Nat) :
    (tEXIFAPP.mk (c4front ++ suffix)).ReadValue 0x201
      = .out (some (.ok (.intVal 1))) := by
  have hbo : (tEXIFAPP.mk (c4front ++ suffix)).TIFFByteOrder = some .little := by
    simp only [tEXIFAPP.TIFFByteOrder]
    rw [getU16_append .big c4front suffix 10 (by decide)]
    decide
  have hoff : (tEXIFAPP.mk (c4front ++ suffix)).TIFFOffsetToIFD0 = some 8 := by
    simp only [tEXIFAPP.TIFFOffsetToIFD0, hbo, Option.some_bind]
    rw [getU32_append .little c4front suffix 14 (by decide)]
    decide
  have hn : tExifIFD.NumberOfTags ⟨18, .little, c4front ++ suffix⟩ = some 1 := by
    simp only [tExifIFD.NumberOfTags]
    rw [getU16_append .little c4front suffix 18 (by decide)]
    decide
  have hg : tExifIFD.GetTag ⟨18, .little, c4front ++ suffix⟩ 0 =
      some ⟨.little, 0, [0x00, 0x01, 0x03, 0x00, 1, 0, 0, 0, 5, 0, 0, 0]⟩ := by
    simp only [tExifIFD.GetTag]
    norm_num [two32]
    rw [goSlice_append c4front suffix 20 32 (by decide)]
    decide
  have htid : tExifTag.TagID ⟨.little, 0, [0x00, 0x01, 0x03, 0x00, 1, 0, 0, 0, 5, 0, 0, 0]⟩
      = some 0x100 := by decide
  have hscan : scanIFD ⟨18, .little, c4front ++ suffix⟩ cIFDZERO 0x201 10 0 1 =
      some (.edges []) := by
    rw [show (1 : Nat) = 0 + 1 from rfl,
      scanIFD_step_skip hg htid (by decide) (by decide) (by decide) (by decide)]
    exact scanIFD_zero _ _ _ _ _
  simp only [tEXIFAPP.ReadValue, hoff, hbo]
  norm_num [two32, walkFuelBound]
  rw [show (4294967298 : Nat) = 4294967297 + 1 from by norm_num,
    walkFuel_cons_edges hn hscan]
  rw [show (4294967297 : Nat) = 4294967296 + 1 from by norm_num]
  simp only [List.reverse_nil, List.nil_append]
  exact walkFuel_nil _ _ _ _

/-- The sixteen type IDs with a case in `tExifIFD.ReadValue`: the ten
scalar forms and the six integer array forms. -/
def handledTypeIds : List Nat :=
  [cUBYTE, cUSHORT, cULONG, cSBYTE, cSSHORT, cSLONG, cFLOAT32, cFLOAT64,
   cURATIONAL, cSRATIONAL, cARRAY ||| cUBYTE, cARRAY ||| cUSHORT,
   cARRAY ||| cULONG, cARRAY ||| cSBYTE, cARRAY ||| cSSHORT, cARRAY ||| cSLONG]

/-- C5 counterexample: an unsigned-rational entry with count 3 does not
decode to a 3-element sequence — its type ID gains the array flag (0x105),
which has no case in `tExifIFD.ReadValue`, so the decode fails with the
generic error even though the out-of-line data is present and valid. This
refutes the claim that count strictly determines scalar-vs-array dispatch
across all 12 primitive types. -/
theorem c5_counterexample_rational_array_fails :
    tExifIFD.ReadValue ⟨0, .little, [1,0,0,0, 2,0,0,0, 3,0,0,0, 4,0,0,0, 5,0,0,0, 6,0,0,0]⟩
        ⟨.little, 0, [0x34, 0x12, 0x05, 0x00, 3, 0, 0, 0, 0, 0, 0, 0]⟩
      = some (.fail "Reading EXIF tag value failed") := by
  decide

/-- C5 amended: count determines scalar-vs-array dispatch only for the six
integer primitive types (an unsigned short with count 1 decodes to a scalar
u16, with count 3 to a 3-element u16 sequence); a rational decodes only as
a scalar (count 1), while ASCII at any count, a rational with count 3, and
a type ID outside the table (13) all fail with the same unsupported-type
error. -/
theorem c5_count_dispatch_only_for_integer_types :
    tExifIFD.ReadValue ⟨0, .little, []⟩
        ⟨.little, 0, [0x34, 0x12, 0x03, 0x00, 1, 0, 0, 0, 7, 0, 0, 0]⟩
      = some (.ok (.u16 7))
    ∧ tExifIFD.ReadValue ⟨0, .little, [10, 0, 20, 0, 30, 0]⟩
        ⟨.little, 0, [0x34, 0x12, 0x03, 0x00, 3, 0, 0, 0, 0, 0, 0, 0]⟩
      = some (.ok (.u16array [10, 20, 30]))
    ∧ tExifIFD.ReadValue ⟨0, .little, [1, 0, 0, 0, 2, 0, 0, 0]⟩
        ⟨.little, 0, [0x34, 0x12, 0x05, 0x00, 1, 0, 0, 0, 0, 0, 0, 0]⟩
      = some (.ok (.f64 (.finite 1 2)))
    ∧ tExifIFD.ReadValue ⟨0, .little, [65, 66, 67, 0]⟩
        ⟨.little, 0, [0x34, 0x12, 0x02, 0x00, 1, 0, 0, 0, 0, 0, 0, 0]⟩
      = some (.fail "Reading EXIF tag value failed")
    ∧ tExifIFD.ReadValue ⟨0, .little, [1, 0, 0, 0, 2, 0, 0, 0]⟩
        ⟨.little, 0, [0x34, 0x12, 0x05, 0x00, 3, 0, 0, 0, 0, 0, 0, 0]⟩
      = some (.fail "Reading EXIF tag value failed")
    ∧ tExifIFD.ReadValue ⟨0, .little, []⟩
        ⟨.little, 0, [0x34, 0x12, 0x0D, 0x00, 1, 0, 0, 0, 0, 0, 0, 0]⟩
      = some (.fail "Reading EXIF tag value failed")
    ∧ (∀ (ifd : tExifIFD) (tag : tExifTag) (tid : Nat), tag.TypeID = some tid →
        tid ∉ handledTypeIds →
        ifd.ReadValue tag = some (.fail "Reading EXIF tag value failed")) := by
  refine ⟨by decide, by decide, by decide, by decide, by decide, by decide, ?_⟩
  intro ifd tag tid ht hn
  have hne : ∀ c : Nat, c ∈ handledTypeIds → tid ≠ c := by
    intro c hc he
    exact hn (he ▸ hc)
  simp only [tExifIFD.ReadValue, ht, Option.some_bind]
  rw [if_neg (hne cUBYTE (by decide)),
      if_neg (hne cUSHORT (by decide)),
      if_neg (hne cULONG (by decide)),
      if_neg (hne cSBYTE (by decide)),
      if_neg (hne cSSHORT (by decide)),
      if_neg (hne cSLONG (by decide)),
      if_neg (hne cFLOAT32 (by decide)),
      if_neg (hne cFLOAT64 (by decide)),
      if_neg (hne cURATIONAL (by decide)),
      if_neg (hne cSRATIONAL (by decide)),
      if_neg (hne (cARRAY ||| cUBYTE) (by decide)),
      if_neg (hne (cARRAY ||| cUSHORT) (by decide)),
      if_neg (hne (cARRAY ||| cULONG) (by decide)),
      if_neg (hne (cARRAY ||| cSBYTE) (by decide)),
      if_neg (hne (cARRAY ||| cSSHORT) (by decide)),
      if_neg (hne (cARRAY ||| cSLONG) (by decide))]

/-- C5 witness: the unknown type ID 13 is outside the handled table, and
the decode of such an entry fails with the unsupported-type error. -/
theorem c5_count_dispatch_only_for_integer_types_witness :
    tExifIFD.ReadValue ⟨7, .big, [1, 2, 3]⟩
        ⟨.big, 0, [0x00, 0x0E, 0x00, 0x0D, 0, 0, 0, 1, 0, 0, 0, 0]⟩
      = some (.fail "Reading EXIF tag value failed") :=
  c5_count_dispatch_only_for_integer_types.2.2.2.2.2.2 _ _ 13 (by decide) (by decide)

/-- C6: every out-of-line value is read at `ifd.offset + storedOffset` —
the stored offset is interpreted relative to the owning IFD's base offset.
Shown for the unsigned-byte array case (the result is the sublist starting
at `base + storedOffset`) and the unsigned-rational case (numerator and
denominator are read at `base + storedOffset` and `base + storedOffset +
4`). -/
theorem c6_out_of_line_offsets_are_ifd_base_relative (e : ByteOrder)
    (blk : List Nat) (base off cnt : Nat) :
    (base + off + cnt ≤ blk.length → base + off + cnt < two32 →
      tExifIFD.readValueFromOffset ⟨base, e, blk⟩ off (cARRAY ||| cUBYTE) cnt =
        some (.ok (.u8array (((blk.drop (base + off)).take cnt).map (· % 256)))))
    ∧ (∀ num den, getU32 e blk (base + off) = some num →
        getU32 e blk (base + off + 4) = some den → base + off + 4 < two32 →
        tExifIFD.readValueFromOffset ⟨base, e, blk⟩ off cURATIONAL cnt =
          some (.ok (.f64 (goDivURat num den))))
    ∧ (∀ bits, getU64 e blk (base + off) = some bits → base + off < two32 →
        tExifIFD.readValueFromOffset ⟨base, e, blk⟩ off cFLOAT64 cnt =
          some (.ok (.f64 (.ofBits bits)))) := by
  refine ⟨?_, ?_, ?_⟩
  · intro h1 h2
    simp only [tExifIFD.readValueFromOffset]
    rw [if_pos trivial]
    have hp : (base + off) % two32 = base + off := Nat.mod_eq_of_lt (by omega)
    have hq : (base + off + cnt) % two32 = base + off + cnt := Nat.mod_eq_of_lt h2
    rw [hp, hq]
    unfold goSlice
    rw [if_pos ⟨by omega, h1⟩]
    simp only [Option.map_some']
    have hc : base + off + cnt - (base + off) = cnt := by omega
    rw [hc]
  · intro num den h1 h2 h3
    simp only [tExifIFD.readValueFromOffset]
    rw [if_neg (show ¬(cURATIONAL = cARRAY ||| cUBYTE) from by decide),
      if_neg (show ¬(cURATIONAL = cARRAY ||| cUSHORT) from by decide),
      if_neg (show ¬(cURATIONAL = cARRAY ||| cULONG) from by decide),
      if_neg (show ¬(cURATIONAL = cARRAY ||| cSBYTE) from by decide),
      if_neg (show ¬(cURATIONAL = cARRAY ||| cSSHORT) from by decide),
      if_neg (show ¬(cURATIONAL = cARRAY ||| cSLONG) from by decide),
      if_neg (show ¬(cURATIONAL = cFLOAT64) from by decide),
      if_pos trivial]
    have hp : (base + off) % two32 = base + off := Nat.mod_eq_of_lt (by omega)
    have hq : (base + off + 4) % two32 = base + off + 4 := Nat.mod_eq_of_lt h3
    rw [hp, hq, h1, h2]
    rfl
  · intro bits h1 h2
    simp only [tExifIFD.readValueFromOffset]
    rw [if_neg (show ¬(cFLOAT64 = cARRAY ||| cUBYTE) from by decide),
      if_neg (show ¬(cFLOAT64 = cARRAY ||| cUSHORT) from by decide),
      if_neg (show ¬(cFLOAT64 = cARRAY ||| cULONG) from by decide),
      if_neg (show ¬(cFLOAT64 = cARRAY ||| cSBYTE) from by decide),
      if_neg (show ¬(cFLOAT64 = cARRAY ||| cSSHORT) from by decide),
      if_neg (show ¬(cFLOAT64 = cARRAY ||| cSLONG) from by decide),
      if_pos trivial]
    have hp : (base + off) % two32 = base + off := Nat.mod_eq_of_lt h2
    rw [hp, h1]
    rfl

/-- C6 witness: with IFD base 3 and stored offset 1, the 3-byte array is
the data at absolute offset 4; with IFD base 4 and stored offset 4, the
rational's numerator and denominator are the words at absolute offsets 8
and 12. -/
theorem c6_out_of_line_offsets_are_ifd_base_relative_witness :
    tExifIFD.readValueFromOffset ⟨3, .little, [0, 0, 0, 0, 11, 22, 33]⟩ 1
        (cARRAY ||| cUBYTE) 3 = some (.ok (.u8array [11, 22, 33]))
    ∧ tExifIFD.readValueFromOffset
        ⟨4, .little, [9, 9, 9, 9, 9, 9, 9, 9, 1, 0, 0, 0, 2, 0, 0, 0]⟩ 4
        cURATIONAL 1 = some (.ok (.f64 (.finite 1 2)))
    ∧ tExifIFD.readValueFromOffset
        ⟨2, .little, [9, 9, 9, 9, 1, 2, 3, 4, 5, 6, 7, 8]⟩ 2
        cFLOAT64 1 = some (.ok (.f64 (.ofBits 0x0807060504030201))) := by
  refine ⟨?_, ?_, ?_⟩
  · have h := (c6_out_of_line_offsets_are_ifd_base_relative .little
      [0, 0, 0, 0, 11, 22, 33] 3 1 3).1 (by decide) (by decide)
    rw [h]
    decide
  · have h := (c6_out_of_line_offsets_are_ifd_base_relative .little
      [9, 9, 9, 9, 9, 9, 9, 9, 1, 0, 0, 0, 2, 0, 0, 0] 4 4 1).2.1 1 2
      (by decide) (by decide) (by decide)
    rw [h]
    decide
  · have h := (c6_out_of_line_offsets_are_ifd_base_relative .little
      [9, 9, 9, 9, 1, 2, 3, 4, 5, 6, 7, 8] 2 2 1).2.2 0x0807060504030201
      (by decide) (by decide)
    rw [h]

/-- C7: the tag lookup implements exactly the spec's work-list algorithm —
seeded with `(ifd0Offset, IFD0)`, processed last-in-first-out, entries
scanned in order with the first tag-ID match decoded and returned
immediately, and pointer tags pushed as edges only when the IFD kind
matches (EXIF and GPS pointers inside IFD0, the Interop pointer inside the
EXIF sub-IFD), with pushed offsets computed relative to the TIFF header
base: `tEXIFAPP.ReadValue` coincides with the spec-shaped `findTagValueSpec`
on every block and tag ID. -/
theorem c7_lookup_equals_spec_worklist_walk (t : tEXIFAPP) (tagId : Nat) :
    t.ReadValue tagId = findTagValueSpec t.block tagId := by
  have he : tEXIFAPP.mk t.block = t := rfl
  unfold tEXIFAPP.ReadValue findTagValueSpec
  rw [he]
  cases h1 : t.TIFFOffsetToIFD0 with
  | none => rfl
  | some off =>
    cases h2 : t.TIFFByteOrder with
    | none => rfl
    | some endian =>
      exact (findTagValueSpecWalk_eq_walkFuel t.block endian tagId walkFuelBound
        [⟨(10 + off) % two32, cIFDZERO⟩]).symm

/-- C8: a rational entry whose stored denominator is 0 decodes to a value,
never to an error: the unsigned case yields NaN when the numerator is also
0 and +Inf otherwise; the signed case yields NaN for numerator 0, +Inf for
a positive and -Inf for a negative numerator — the IEEE-754 value of the
division, with no UnsupportedType failure and no crash. -/
theorem c8_zero_denominator_rational_decodes (e : ByteOrder) (blk : List Nat)
    (base off cnt num : Nat) :
    (getU32 e blk (base + off) = some num → getU32 e blk (base + off + 4) = some 0 →
      base + off + 4 < two32 →
      tExifIFD.readValueFromOffset ⟨base, e, blk⟩ off cURATIONAL cnt =
        some (.ok (.f64 (if num = 0 then GoFloat64.nan else GoFloat64.inf))))
    ∧ (getU32 e blk (base + off) = some num → getU32 e blk (base + off + 4) = some 0 →
      base + off + 4 < two32 →
      tExifIFD.readValueFromOffset ⟨base, e, blk⟩ off cSRATIONAL cnt =
        some (.ok (.f64 (if toInt32 num = 0 then GoFloat64.nan
          else if 0 < toInt32 num then GoFloat64.inf else GoFloat64.negInf)))) := by
  constructor
  · intro h1 h2 h3
    simp only [tExifIFD.readValueFromOffset]
    rw [if_neg (show ¬(cURATIONAL = cARRAY ||| cUBYTE) from by decide),
      if_neg (show ¬(cURATIONAL = cARRAY ||| cUSHORT) from by decide),
      if_neg (show ¬(cURATIONAL = cARRAY ||| cULONG) from by decide),
      if_neg (show ¬(cURATIONAL = cARRAY ||| cSBYTE) from by decide),
      if_neg (show ¬(cURATIONAL = cARRAY ||| cSSHORT) from by decide),
      if_neg (show ¬(cURATIONAL = cARRAY ||| cSLONG) from by decide),
      if_neg (show ¬(cURATIONAL = cFLOAT64) from by decide),
      if_pos trivial]
    have hp : (base + off) % two32 = base + off := Nat.mod_eq_of_lt (by omega)
    have hq : (base + off + 4) % two32 = base + off + 4 := Nat.mod_eq_of_lt h3
    rw [hp, hq, h1, h2]
    simp [goDivURat]
  · intro h1 h2 h3
    simp only [tExifIFD.readValueFromOffset]
    rw [if_neg (show ¬(cSRATIONAL = cARRAY ||| cUBYTE) from by decide),
      if_neg (show ¬(cSRATIONAL = cARRAY ||| cUSHORT) from by decide),
      if_neg (show ¬(cSRATIONAL = cARRAY ||| cULONG) from by decide),
      if_neg (show ¬(cSRATIONAL = cARRAY ||| cSBYTE) from by decide),
      if_neg (show ¬(cSRATIONAL = cARRAY ||| cSSHORT) from by decide),
      if_neg (show ¬(cSRATIONAL = cARRAY ||| cSLONG) from by decide),
      if_neg (show ¬(cSRATIONAL = cFLOAT64) from by decide),
      if_neg (show ¬(cSRATIONAL = cURATIONAL) from by decide),
      if_pos trivial]
    have hp : (base + off) % two32 = base + off := Nat.mod_eq_of_lt (by omega)
    have hq : (base + off + 4) % two32 = base + off + 4 := Nat.mod_eq_of_lt h3
    have hz : toInt32 0 = 0 := by decide
    rw [hp, hq, h1, h2]
    simp only [Option.some_bind, Option.map_some', hz]
    simp [goDivSRat]

/-- C8 witness: numerator 1 over denominator 0 decodes to +Inf in the
unsigned case; the signed numerator 0xFFFFFFFF (-1) over denominator 0
decodes to -Inf. -/
theorem c8_zero_denominator_rational_decodes_witness :
    tExifIFD.readValueFromOffset ⟨0, .little, [1, 0, 0, 0, 0, 0, 0, 0]⟩ 0
        cURATIONAL 1 = some (.ok (.f64 GoFloat64.inf))
    ∧ tExifIFD.readValueFromOffset ⟨0, .little, [255, 255, 255, 255, 0, 0, 0, 0]⟩ 0
        cSRATIONAL 1 = some (.ok (.f64 GoFloat64.negInf)) := by
  constructor
  · have h := (c8_zero_denominator_rational_decodes .little
      [1, 0, 0, 0, 0, 0, 0, 0] 0 0 1 1).1 (by decide) (by decide) (by decide)
    rw [h]
    decide
  · have h := (c8_zero_denominator_rational_decodes .little
      [255, 255, 255, 255, 0, 0, 0, 0] 0 0 1 4294967295).2
      (by decide) (by decide) (by decide)
    rw [h]
    decide

/-- C9: the IFD-graph walk terminates on every input block: the work list
is only ever extended by pointer-tag edges whose IFD kind strictly
descends, so the weighted work list shrinks at every iteration and the
fueled loop never exhausts its budget — `tEXIFAPP.ReadValue` never returns
the fuel-exhaustion marker, for any block (cyclic or self-referencing
offsets included) and any tag ID. -/
theorem c9_walk_always_terminates (t : tEXIFAPP) (tagID : Nat) :
    t.ReadValue tagID ≠ WalkOut.fuelOut := by
  unfold tEXIFAPP.ReadValue
  cases h1 : t.TIFFOffsetToIFD0 with
  | none => simp
  | some off =>
    cases h2 : t.TIFFByteOrder with
    | none => simp
    | some endian =>
      apply walkFuel_no_fuelOut
      norm_num [queueWeight, kindWeight, walkFuelBound]

/-- C10: byte-order detection is two-valued with no validation: whenever
the two marker bytes at block offset 10 are readable, `TIFFByteOrder`
returns little-endian exactly when their big-endian 16-bit value equals
`cINTEL` ("II"), and big-endian for every other value — an invalid marker
is silently treated as big-endian. -/
theorem c10_byte_order_detection_total_no_validation (t : tEXIFAPP)
    (h : 12 ≤ t.block.length) :
    ∃ bo, getU16 .big t.block 10 = some bo ∧
      t.TIFFByteOrder = some (if bo = cINTEL then ByteOrder.little else ByteOrder.big) := by
  have hx : t.block.get? 10 = some (t.block.get ⟨10, by omega⟩) :=
    List.get?_eq_get (by omega)
  have hy : t.block.get? 11 = some (t.block.get ⟨11, by omega⟩) :=
    List.get?_eq_get (by omega)
  refine ⟨(t.block.get ⟨10, by omega⟩) % 256 * 256 + (t.block.get ⟨11, by omega⟩) % 256,
    ?_, ?_⟩
  · unfold getU16 byteAt
    rw [hx, hy]
    rfl
  · unfold tEXIFAPP.TIFFByteOrder getU16 byteAt
    rw [hx, hy]
    rfl

/-- C10 witness: a block whose marker is "XX" (neither "II" nor "MM") is
silently assigned big-endian. -/
theorem c10_byte_order_detection_total_no_validation_witness :
    (tEXIFAPP.mk c10blk).TIFFByteOrder = some ByteOrder.big := by
  obtain ⟨bo, h1, h2⟩ :=
    c10_byte_order_detection_total_no_validation (tEXIFAPP.mk c10blk) (by decide)
  have hbo : getU16 .big (tEXIFAPP.mk c10blk).block 10 = some 0x5858 := by decide
  rw [hbo] at h1
  injection h1 with h1
  subst h1
  rw [if_neg (by decide)] at h2
  exact h2

end Imgmeta
